import Mathlib

/-!
# Verification of `src/python/pants/bsp/util_rules/compile.py`

A shallow embedding of the BSP multi-backend compile orchestration:
the per-target dispatcher `compile_bsp_target` and the batch
orchestrator `bsp_compile_request`.

The only source file of the repository is `compile.py`; the data types
it imports (`StatusCode`, the task notification parameter types, the
digest/merge operations of the engine, `BSPContext.notify_client`) live
elsewhere in the repository and are modelled from the spec where noted.

Python-level nondeterminism is made explicit:
* the iteration order of a Python `set[FieldSet]` (used when the
  per-kind field-set group is converted to a tuple at line 81 of the
  source) is an oracle `enumSet`, constrained only to enumerate the
  set, i.e. to produce a permutation of its elements;
* `uuid.uuid4().hex` and `time.time()` are parameters (`task_id`,
  event times) supplied by the environment;
* the notification sink's delivery outcome is an oracle `sink` whose
  result the orchestration code never consumes.
-/

namespace PantsBSP

/-- Modelled from the spec: `BuildTargetIdentifier`, the opaque
client-visible target name (`pants.bsp.spec.base`, not under `src/`). -/
structure BuildTargetIdentifier where
  uri : String
  deriving DecidableEq, Repr

/-- Modelled from the spec: `BSPBuildTargetInternal`
(`pants.bsp.util_rules.targets`, not under `src/`); the dispatcher only
uses its `bsp_target_id` attribute and passes the whole value through. -/
structure BSPBuildTargetInternal where
  name : String
  bsp_target_id : BuildTargetIdentifier
  deriving DecidableEq, Repr

/-- Modelled from the spec: `TaskId` (`pants.bsp.spec.base`, not under
`src/`), the server-generated token correlating one per-target
compile's start/finish notifications. -/
structure TaskId where
  id : String
  deriving DecidableEq, Repr

/-- Modelled from the spec: `StatusCode` `{OK, ERROR}`
(`pants.bsp.spec.base`, not under `src/`). -/
inductive StatusCode where
  | ok
  | error
  deriving DecidableEq, Repr

/-- The integer carried by `CompileResult.status_code` (the source uses
`status_code.value`). -/
def StatusCode.value : StatusCode → Nat
  | .ok => 1
  | .error => 2

/-- Modelled from the spec: an output tree (`Digest` of the engine, not
under `src/`) is a content-addressed directory: here a list of
`(path, content)` entries.  The empty digest is the empty tree. -/
abbrev Digest := List (String × String)

/-- Modelled from the spec: `EMPTY_DIGEST`, the digest of the empty tree. -/
def EMPTY_DIGEST : Digest := []

/-- A merge conflict: two trees claim the same path with different
contents. -/
structure MergeError where
  path : String
  deriving DecidableEq, Repr

/-- Modelled from the spec: one step of tree merge.  Adding an entry to
an accumulated tree keeps the tree unchanged when the identical entry is
already present (idempotent over identical content) and fails when the
path is present with different content (path collision). -/
def mergeEntry (acc : Digest) (e : String × String) : Except MergeError Digest :=
  match acc.find? (fun x => x.1 = e.1) with
  | some x => if x.2 = e.2 then .ok acc else .error ⟨e.1⟩
  | none => .ok (acc ++ [e])

/-- Modelled from the spec: `MergeDigests` of the engine (not under
`src/`): merge a list of output trees into one, failing deterministically
on a path collision. -/
def mergeDigests (ds : List Digest) : Except MergeError Digest :=
  ds.flatten.foldlM mergeEntry []

/-- Modelled from the spec: `BSPCompileResult`
(`pants.bsp.util_rules.targets`, not under `src/`): `{status, OutputTree}`
returned by one backend kind for one target, and also the per-target
aggregate. -/
structure BSPCompileResult where
  status : StatusCode
  output_digest : Digest
  deriving DecidableEq, Repr

/-- Modelled from the spec: `CompileTask` payload of a `TaskStart`
notification (`pants.bsp.spec.compile`, not under `src/`). -/
structure CompileTask where
  target : BuildTargetIdentifier
  deriving DecidableEq, Repr

/-- Modelled from the spec: `CompileReport` payload of a `TaskFinish`
notification (`pants.bsp.spec.compile`, not under `src/`). -/
structure CompileReport where
  target : BuildTargetIdentifier
  origin_id : Option String
  errors : Nat
  warnings : Nat
  deriving DecidableEq, Repr

/-- Modelled from the spec: `TaskStartParams`
(`pants.bsp.spec.task`, not under `src/`). -/
structure TaskStartParams where
  task_id : TaskId
  event_time : Int
  data : CompileTask
  deriving DecidableEq, Repr

/-- Modelled from the spec: `TaskFinishParams`
(`pants.bsp.spec.task`, not under `src/`). -/
structure TaskFinishParams where
  task_id : TaskId
  event_time : Int
  status : StatusCode
  data : CompileReport
  deriving DecidableEq, Repr

/-- A notification pushed to the client through the sink. -/
inductive TaskNotification where
  | start : TaskStartParams → TaskNotification
  | finish : TaskFinishParams → TaskNotification
  deriving DecidableEq, Repr

/-- Modelled from the spec: the field-set type attached to a
`BSPCompileRequest` union member: an applicability predicate over
targets and a field-set extraction (`FieldSet.is_applicable` /
`FieldSet.create`, not under `src/`). -/
structure FieldSetType (Target FieldSet : Type) where
  is_applicable : Target → Bool
  create : Target → FieldSet

/-- Modelled from the spec: one registered `BSPCompileRequest` subtype
(a backend kind).  Registered types are distinct; `name` stands for the
identity of the Python type object. -/
structure BSPCompileRequestType (Target FieldSet : Type) where
  name : String
  field_set_type : FieldSetType Target FieldSet

/-- `CompileOneBSPTargetRequest` (source lines 37-46). -/
structure CompileOneBSPTargetRequest where
  bsp_target : BSPBuildTargetInternal
  origin_id : Option String
  arguments : Option (List String)
  deriving DecidableEq, Repr

/-- `CompileParams` of the batch entry point
(modelled from the spec: `pants.bsp.spec.compile`, not under `src/`). -/
structure CompileParams where
  targets : List BuildTargetIdentifier
  origin_id : Option String
  arguments : Option (List String)
  deriving DecidableEq, Repr

/-- Modelled from the spec: `CompileResult`, the response returned to
the client (`pants.bsp.spec.compile`, not under `src/`). -/
structure CompileResult where
  origin_id : Option String
  status_code : Nat
  deriving DecidableEq, Repr

/-- An observable action of the per-target dispatcher, in program
order: a notification handed to the sink (together with the sink's
delivery outcome, which the dispatcher ignores), or one backend
compile sub-request `Get(BSPCompileResult, BSPCompileRequest, ...)`. -/
inductive Event (FieldSet : Type) where
  | notified : TaskNotification → Bool → Event FieldSet
  | invoked : String → List FieldSet → Event FieldSet
  deriving DecidableEq, Repr

/-- The environment of external collaborators of `compile_bsp_target`:
target resolution, the registered compile-request types
(`union_membership.get(BSPCompileRequest)`, in registration order), the
backend rules answering the compile sub-requests, the Python set
iteration oracle, and the notification sink. -/
structure DispatchEnv (Target FieldSet : Type) where
  resolveTargets : BSPBuildTargetInternal → List Target
  compile_request_types : List (BSPCompileRequestType Target FieldSet)
  handler : String → BSPBuildTargetInternal → List FieldSet → BSPCompileResult
  enumSet : List FieldSet → List FieldSet
  sink : TaskNotification → Bool

variable {Target FieldSet : Type}

/-- Add one element to a deduplicating collection (Python `set.add`:
the set's contents, kept in first-insertion order). -/
def addFS [DecidableEq FieldSet] (s : List FieldSet) (fs : FieldSet) : List FieldSet :=
  if fs ∈ s then s else s ++ [fs]

/-- Add a field set to the group of one request type in the
insertion-ordered dictionary (`defaultdict(set)` at source line 59:
`field_sets_by_request_type[compile_request_type].add(field_set)`). -/
def dictAdd [DecidableEq FieldSet] (d : List (String × List FieldSet))
    (key : String) (fs : FieldSet) : List (String × List FieldSet) :=
  match d with
  | [] => [(key, [fs])]
  | (k, s) :: rest =>
    if k = key then (k, addFS s fs) :: rest
    else (k, s) :: dictAdd rest key fs

/-- The classification double loop of source lines 59-65: for every
target and every registered compile-request type whose field-set type is
applicable, extract a field set and add it to that type's group. -/
def classify [DecidableEq FieldSet] (crts : List (BSPCompileRequestType Target FieldSet))
    (targets : List Target) : List (String × List FieldSet) :=
  targets.foldl (fun d target =>
    crts.foldl (fun d crt =>
      if crt.field_set_type.is_applicable target
      then dictAdd d crt.name (crt.field_set_type.create target)
      else d) d) []

/-- Look up the group of field sets stored for key `k` in the
classification dictionary; the empty set if `k` is absent. -/
def dictGet [DecidableEq FieldSet] (d : List (String × List FieldSet)) (k : String) :
    List FieldSet :=
  match d.find? (fun g => g.1 = k) with
  | some g => g.2
  | none => []

/-- The deduplicated group of field sets the classification associates
with the request-type name `n`: one entry per distinct extraction from
a matched target, in first-extraction order (the canonical contents of
the Python `set` for that key). -/
def groupFS [DecidableEq FieldSet] (crts : List (BSPCompileRequestType Target FieldSet))
    (targets : List Target) (n : String) : List FieldSet :=
  targets.foldl (fun s t =>
    crts.foldl (fun s crt =>
      if crt.name = n ∧ crt.field_set_type.is_applicable t
      then addFS s (crt.field_set_type.create t) else s) s) []

/-- Status aggregation of source lines 86-88 and 138-140: start from
`OK`; any non-`OK` constituent forces `ERROR`. -/
def aggregateStatus (rs : List BSPCompileResult) : StatusCode :=
  if rs.any (fun r => r.status ≠ StatusCode.ok) then .error else .ok

/-- The compile sub-requests issued by the `MultiGet` of source lines
77-84: one per classified request type, in dictionary order, each
carrying the tuple the Python set enumeration produces for its group. -/
def dispatchCalls [DecidableEq FieldSet] (env : DispatchEnv Target FieldSet)
    (request : CompileOneBSPTargetRequest) : List (String × List FieldSet) :=
  (classify env.compile_request_types (env.resolveTargets request.bsp_target)).map
    (fun g => (g.1, env.enumSet g.2))

/-- The backend results joined by the `MultiGet` of source lines 77-84. -/
def dispatchResults [DecidableEq FieldSet] (env : DispatchEnv Target FieldSet)
    (request : CompileOneBSPTargetRequest) : List BSPCompileResult :=
  (dispatchCalls env request).map (fun c => env.handler c.1 request.bsp_target c.2)

/-- The `TaskStartParams` built at source lines 70-74. -/
def startParamsOf (request : CompileOneBSPTargetRequest) (task_id : TaskId)
    (t1 : Int) : TaskStartParams :=
  { task_id := task_id, event_time := t1
    data := { target := request.bsp_target.bsp_target_id } }

/-- The `TaskFinishParams` built at source lines 91-101. -/
def finishParamsOf (request : CompileOneBSPTargetRequest) (task_id : TaskId)
    (t2 : Int) (status : StatusCode) : TaskFinishParams :=
  { task_id := task_id, event_time := t2, status := status
    data := { target := request.bsp_target.bsp_target_id
              origin_id := request.origin_id, errors := 0, warnings := 0 } }

/-- The observable actions of one run of `compile_bsp_target`, in
program order: the `TaskStart` notification (line 69) precedes every
backend sub-request (lines 77-84), which precede the `TaskFinish`
notification (line 90).  All of this happens before the merge of the
output digests at line 104. -/
def dispatchEvents [DecidableEq FieldSet] (env : DispatchEnv Target FieldSet)
    (request : CompileOneBSPTargetRequest) (task_id : TaskId) (t1 t2 : Int) :
    List (Event FieldSet) :=
  let startParams := startParamsOf request task_id t1
  let finishParams := finishParamsOf request task_id t2
    (aggregateStatus (dispatchResults env request))
  Event.notified (.start startParams) (env.sink (.start startParams))
    :: (dispatchCalls env request).map (fun c => Event.invoked c.1 c.2)
    ++ [Event.notified (.finish finishParams) (env.sink (.finish finishParams))]

/-- The outcome of one run of the per-target dispatcher: its observable
actions and either the returned `BSPCompileResult` or the error the
digest merge of line 104 raised. -/
structure DispatchOutcome (FieldSet : Type) where
  events : List (Event FieldSet)
  result : Except MergeError BSPCompileResult
  deriving Repr

/-- `compile_bsp_target` (source lines 49-109): resolve the BSP target
to its underlying targets, classify them by applicable compile-request
type, emit `TaskStart`, issue one compile sub-request per classified
type, aggregate the statuses, emit `TaskFinish`, then merge the output
digests (which can fail) and return the aggregate.  The `events` field
records everything the dispatcher did up to and including the
`TaskFinish` notification of line 90; the merge of line 104 happens
after all of it and only affects the returned `result`. -/
def compile_bsp_target [DecidableEq FieldSet] (env : DispatchEnv Target FieldSet)
    (request : CompileOneBSPTargetRequest) (task_id : TaskId) (t1 t2 : Int) :
    DispatchOutcome FieldSet :=
  { events := dispatchEvents env request task_id t1 t2
    result :=
      match mergeDigests ((dispatchResults env request).map (fun r => r.output_digest)) with
      | .error e => .error e
      | .ok output_digest =>
        .ok { status := aggregateStatus (dispatchResults env request)
              output_digest := output_digest } }

/-- Join semantics of the engine's `MultiGet`: all sub-requests must
succeed; a failure of any one of them fails the whole gather, and no
list of results is produced. -/
def gatherAll {α β ε : Type} (f : α → Except ε β) : List α → Except ε (List β)
  | [] => .ok []
  | a :: l =>
    match f a with
    | .error e => .error e
    | .ok b =>
      match gatherAll f l with
      | .error e => .error e
      | .ok bs => .ok (b :: bs)

/-- A failure of the batch orchestrator: a target identifier could not
be resolved, or a digest merge (inside a dispatcher or of the combined
tree) hit a path collision. -/
inductive BatchError where
  | resolveFailure : String → BatchError
  | mergeFailure : MergeError → BatchError
  deriving DecidableEq, Repr

/-- The environment of `bsp_compile_request`: identifier resolution
(`Get(BSPBuildTargetInternal, BuildTargetIdentifier, _)`, which can
fail), the dispatcher's environment, and the uuid/clock sources of each
per-target dispatch. -/
structure BatchEnv (Target FieldSet : Type) where
  resolve : BuildTargetIdentifier → Except String BSPBuildTargetInternal
  dispatchEnv : DispatchEnv Target FieldSet
  mint : BSPBuildTargetInternal → TaskId
  startTime : BSPBuildTargetInternal → Int
  finishTime : BSPBuildTargetInternal → Int

/-- The fixed workspace output path of source line 136. -/
def bspWritePath : String := ".pants.d/bsp"

/-- The per-target dispatcher runs of the `MultiGet` of source lines
122-132, one per resolved target. -/
def batchRuns [DecidableEq FieldSet] (env : BatchEnv Target FieldSet)
    (request : CompileParams) (bsp_targets : List BSPBuildTargetInternal) :
    List (DispatchOutcome FieldSet) :=
  bsp_targets.map (fun bt =>
    compile_bsp_target env.dispatchEnv
      { bsp_target := bt, origin_id := request.origin_id
        arguments := request.arguments }
      (env.mint bt) (env.startTime bt) (env.finishTime bt))

/-- The outcome of one batch run: all dispatcher events, the workspace
write performed by `workspace.write_digest` (if any) as the pair of the
digest and the path it was written under, and the response to the
client or the error that aborted the batch. -/
structure BatchOutcome (FieldSet : Type) where
  events : List (Event FieldSet)
  written : Option (Digest × String)
  response : Except BatchError CompileResult
  deriving Repr

/-- `bsp_compile_request` (source lines 112-145): resolve every
requested identifier (any failure aborts the batch before any dispatch),
run the per-target dispatcher for each, merge all output digests, write
the combined digest to the workspace only when it is non-empty, and
aggregate the overall status. -/
def bsp_compile_request [DecidableEq FieldSet] (env : BatchEnv Target FieldSet)
    (request : CompileParams) : BatchOutcome FieldSet :=
  match gatherAll env.resolve request.targets with
  | .error e => { events := [], written := none, response := .error (.resolveFailure e) }
  | .ok bsp_targets =>
    let runs := batchRuns env request bsp_targets
    let events := (runs.map (fun r => r.events)).flatten
    match gatherAll (fun r => r.result) runs with
    | .error e => { events := events, written := none, response := .error (.mergeFailure e) }
    | .ok compile_results =>
      match mergeDigests (compile_results.map (fun r => r.output_digest)) with
      | .error e =>
        { events := events, written := none, response := .error (.mergeFailure e) }
      | .ok output_digest =>
        let written :=
          if output_digest ≠ EMPTY_DIGEST then some (output_digest, bspWritePath) else none
        { events := events, written := written
          response := .ok { origin_id := request.origin_id
                            status_code := (aggregateStatus compile_results).value } }

/-! ## Observations over event traces -/

/-- Whether an event is the push of a `TaskStart` notification. -/
def Event.isStart : Event FieldSet → Bool
  | .notified (.start _) _ => true
  | _ => false

/-- Whether an event is the push of a `TaskFinish` notification. -/
def Event.isFinish : Event FieldSet → Bool
  | .notified (.finish _) _ => true
  | _ => false

/-- Whether an event is a backend compile sub-request. -/
def Event.isInvoke : Event FieldSet → Bool
  | .invoked _ _ => true
  | _ => false

/-- Whether an event is a backend compile sub-request addressed to the
compile-request type named `n`. -/
def Event.isInvokeFor (n : String) : Event FieldSet → Bool
  | .invoked k _ => k = n
  | _ => false

/-- An event with the sink's delivery outcome erased: what the
orchestration core itself can observe of its own actions. -/
inductive ObservedEvent (FieldSet : Type) where
  | notified : TaskNotification → ObservedEvent FieldSet
  | invoked : String → List FieldSet → ObservedEvent FieldSet
  deriving DecidableEq, Repr

/-- Erase the sink's delivery outcome from an event. -/
def observe : Event FieldSet → ObservedEvent FieldSet
  | .notified n _ => .notified n
  | .invoked k fs => .invoked k fs

/-! ## Concrete fixtures

Small closed instances (targets and field sets are natural numbers)
used to evaluate the embedded program on concrete inputs. -/

/-- A sample client-visible target identifier. -/
def sampleTargetId : BuildTargetIdentifier := ⟨"bsp://lib"⟩

/-- A sample resolved BSP target. -/
def sampleBSPTarget : BSPBuildTargetInternal := ⟨"lib", sampleTargetId⟩

/-- A sample per-target compile request. -/
def sampleRequest : CompileOneBSPTargetRequest :=
  { bsp_target := sampleBSPTarget, origin_id := some "origin-1", arguments := some [] }

/-- A sample task id (standing for one `uuid.uuid4().hex` draw). -/
def sampleTaskId : TaskId := ⟨"task-1"⟩

/-- A backend kind applicable to every target, extracting the target
itself as its field set. -/
def kindAlpha : BSPCompileRequestType Nat Nat :=
  { name := "kindA", field_set_type := { is_applicable := fun _ => true, create := fun t => t } }

/-- A second backend kind applicable to every target, extracting a
distinct field set. -/
def kindBeta : BSPCompileRequestType Nat Nat :=
  { name := "kindB"
    field_set_type := { is_applicable := fun _ => true, create := fun t => t + 100 } }

/-- A backend kind applicable to no target. -/
def kindNever : BSPCompileRequestType Nat Nat :=
  { name := "kindN", field_set_type := { is_applicable := fun _ => false, create := fun t => t } }

/-- An environment with one registered kind matching both resolved
targets; its backend succeeds with a one-file output tree. -/
def envShared : DispatchEnv Nat Nat :=
  { resolveTargets := fun _ => [3, 4]
    compile_request_types := [kindAlpha]
    handler := fun _ _ _ => { status := .ok, output_digest := [("out/f", "h")] }
    enumSet := fun l => l
    sink := fun _ => true }

/-- The same environment as `envShared` except that the Python set
enumeration happens to produce the opposite order: a second admissible
run of the same classifier on the same input. -/
def envSharedRev : DispatchEnv Nat Nat :=
  { envShared with enumSet := List.reverse }

/-- An environment with two registered kinds matching the one resolved
target; both backends succeed but their output trees collide on the
path `out/a`. -/
def envTwoKinds : DispatchEnv Nat Nat :=
  { resolveTargets := fun _ => [0]
    compile_request_types := [kindAlpha, kindBeta]
    handler := fun n _ _ =>
      if n = "kindA" then { status := .ok, output_digest := [("out/a", "h1")] }
      else { status := .ok, output_digest := [("out/a", "h2")] }
    enumSet := fun l => l
    sink := fun _ => true }

/-- An environment whose only registered kind applies to no target. -/
def envNone : DispatchEnv Nat Nat :=
  { resolveTargets := fun _ => [0, 1]
    compile_request_types := [kindNever]
    handler := fun _ _ _ => { status := .ok, output_digest := [] }
    enumSet := fun l => l
    sink := fun _ => true }

/-- A batch environment in which every identifier resolves. -/
def batchEnvOk : BatchEnv Nat Nat :=
  { resolve := fun i => .ok { name := "t", bsp_target_id := i }
    dispatchEnv := envShared
    mint := fun _ => sampleTaskId
    startTime := fun _ => 0
    finishTime := fun _ => 0 }

/-- A batch environment in which no identifier resolves. -/
def batchEnvBad : BatchEnv Nat Nat :=
  { batchEnvOk with resolve := fun _ => .error "unknown target" }

/-- Sample batch compile parameters naming one target. -/
def sampleParams : CompileParams :=
  { targets := [sampleTargetId], origin_id := some "origin-1", arguments := some [] }

/-- A sample backend result with status `OK`. -/
def resOk : BSPCompileResult := { status := .ok, output_digest := [] }

/-- A sample backend result with status `ERROR`. -/
def resErr : BSPCompileResult := { status := .error, output_digest := [] }

end PantsBSP

namespace PantsBSP

variable {Target FieldSet : Type}

/-! ## Theorems -/

section ClassifyLemmas

variable [DecidableEq FieldSet]

/-- Membership in a deduplicating add. -/
theorem mem_addFS (s : List FieldSet) (f x : FieldSet) :
    x ∈ addFS s f ↔ x ∈ s ∨ x = f := by
  unfold addFS
  split
  · next h =>
    constructor
    · exact Or.inl
    · rintro (h' | rfl)
      · exact h'
      · exact h
  · simp [List.mem_append]

/-- A deduplicating add preserves freedom from duplicates. -/
theorem addFS_nodup {s : List FieldSet} (hs : s.Nodup) (f : FieldSet) :
    (addFS s f).Nodup := by
  unfold addFS
  split
  · exact hs
  · next h => simp [List.nodup_append, hs, h]

/-- Lookup in the empty dictionary. -/
theorem dictGet_nil (k : String) : dictGet ([] : List (String × List FieldSet)) k = [] := rfl

/-- Unfolding lookup over the head entry of a dictionary. -/
theorem dictGet_cons (k'' : String) (s : List FieldSet)
    (rest : List (String × List FieldSet)) (k : String) :
    dictGet ((k'', s) :: rest) k = if k'' = k then s else dictGet rest k := by
  unfold dictGet
  by_cases h : k'' = k
  · subst h
    rw [List.find?_cons_of_pos _ (by simp), if_pos rfl]
  · rw [List.find?_cons_of_neg _ (by simp [h]), if_neg h]

/-- Looking up the key just added yields its previous group with the
new field set added. -/
theorem dictGet_dictAdd_self (d : List (String × List FieldSet)) (k : String) (f : FieldSet) :
    dictGet (dictAdd d k f) k = addFS (dictGet d k) f := by
  induction d with
  | nil => simp [dictAdd, dictGet_cons, dictGet_nil, addFS]
  | cons g rest ih =>
    obtain ⟨k', s⟩ := g
    by_cases hk : k' = k
    · subst hk
      simp [dictAdd, dictGet_cons]
    · simp [dictAdd, hk, dictGet_cons, ih]

/-- Looking up a different key is unaffected by an add. -/
theorem dictGet_dictAdd_ne (d : List (String × List FieldSet)) {k k' : String}
    (hne : k' ≠ k) (f : FieldSet) :
    dictGet (dictAdd d k f) k' = dictGet d k' := by
  induction d with
  | nil => simp [dictAdd, dictGet_cons, dictGet_nil, Ne.symm hne]
  | cons g rest ih =>
    obtain ⟨k'', s⟩ := g
    by_cases hk : k'' = k
    · subst hk
      simp [dictAdd, dictGet_cons, Ne.symm hne]
    · simp [dictAdd, hk, dictGet_cons, ih]

/-- The inner classification loop (over the registered request types,
source lines 61-65), seen through the lens of one key `n`. -/
theorem dictGet_inner_fold (crts : List (BSPCompileRequestType Target FieldSet))
    (t : Target) (n : String) (d : List (String × List FieldSet)) :
    dictGet (crts.foldl (fun d crt =>
        if crt.field_set_type.is_applicable t
        then dictAdd d crt.name (crt.field_set_type.create t) else d) d) n
      = crts.foldl (fun s crt =>
        if crt.name = n ∧ crt.field_set_type.is_applicable t
        then addFS s (crt.field_set_type.create t) else s) (dictGet d n) := by
  induction crts generalizing d with
  | nil => rfl
  | cons crt rest ih =>
    simp only [List.foldl_cons]
    by_cases happ : crt.field_set_type.is_applicable t
    · rw [if_pos happ]
      by_cases hname : crt.name = n
      · subst hname
        rw [if_pos ⟨rfl, happ⟩, ih, dictGet_dictAdd_self]
      · rw [if_neg (by exact fun hc => hname hc.1), ih,
          dictGet_dictAdd_ne _ (fun h => hname h.symm)]
    · rw [if_neg (by simpa using happ), if_neg (fun hc => happ hc.2), ih]

/-- The group the classification dictionary stores for the key `n` is
exactly `groupFS`. -/
theorem classify_get (crts : List (BSPCompileRequestType Target FieldSet))
    (targets : List Target) (n : String) :
    dictGet (classify crts targets) n = groupFS crts targets n := by
  unfold classify groupFS
  suffices h : ∀ d, dictGet (targets.foldl (fun d target =>
      crts.foldl (fun d crt =>
        if crt.field_set_type.is_applicable target
        then dictAdd d crt.name (crt.field_set_type.create target) else d) d) d) n
      = targets.foldl (fun s t =>
        crts.foldl (fun s crt =>
          if crt.name = n ∧ crt.field_set_type.is_applicable t
          then addFS s (crt.field_set_type.create t) else s) s) (dictGet d n) by
    simpa [dictGet] using h []
  induction targets with
  | nil => intro d; rfl
  | cons t ts ih =>
    intro d
    simp only [List.foldl_cons]
    rw [ih, dictGet_inner_fold]

/-- Membership in the inner classification fold over one target. -/
theorem mem_inner_fold (crts : List (BSPCompileRequestType Target FieldSet))
    (t : Target) (n : String) (s : List FieldSet) (x : FieldSet) :
    x ∈ crts.foldl (fun s crt =>
        if crt.name = n ∧ crt.field_set_type.is_applicable t
        then addFS s (crt.field_set_type.create t) else s) s
      ↔ x ∈ s ∨ ∃ crt ∈ crts, crt.name = n ∧ crt.field_set_type.is_applicable t
          ∧ crt.field_set_type.create t = x := by
  induction crts generalizing s with
  | nil => simp
  | cons crt rest ih =>
    simp only [List.foldl_cons]
    by_cases hc : crt.name = n ∧ crt.field_set_type.is_applicable t
    · rw [if_pos hc, ih]
      simp only [mem_addFS, List.mem_cons]
      constructor
      · rintro ((hx | rfl) | ⟨c, hcm, hcp⟩)
        · exact Or.inl hx
        · exact Or.inr ⟨crt, Or.inl rfl, hc.1, hc.2, rfl⟩
        · exact Or.inr ⟨c, Or.inr hcm, hcp⟩
      · rintro (hx | ⟨c, (rfl | hcm), hcp⟩)
        · exact Or.inl (Or.inl hx)
        · exact Or.inl (Or.inr hcp.2.2.symm)
        · exact Or.inr ⟨c, hcm, hcp⟩
    · rw [if_neg hc, ih]
      simp only [List.mem_cons]
      constructor
      · rintro (hx | ⟨c, hcm, hcp⟩)
        · exact Or.inl hx
        · exact Or.inr ⟨c, Or.inr hcm, hcp⟩
      · rintro (hx | ⟨c, (rfl | hcm), hcp⟩)
        · exact Or.inl hx
        · exact absurd ⟨hcp.1, hcp.2.1⟩ hc
        · exact Or.inr ⟨c, hcm, hcp⟩

/-- Membership in a per-kind group: exactly the field sets extracted
from some resolved target by some registered type carrying the name. -/
theorem mem_groupFS (crts : List (BSPCompileRequestType Target FieldSet))
    (targets : List Target) (n : String) (x : FieldSet) :
    x ∈ groupFS crts targets n
      ↔ ∃ t ∈ targets, ∃ crt ∈ crts, crt.name = n
          ∧ crt.field_set_type.is_applicable t
          ∧ crt.field_set_type.create t = x := by
  unfold groupFS
  suffices h : ∀ s, x ∈ targets.foldl (fun s t =>
      crts.foldl (fun s crt =>
        if crt.name = n ∧ crt.field_set_type.is_applicable t
        then addFS s (crt.field_set_type.create t) else s) s) s
      ↔ x ∈ s ∨ ∃ t ∈ targets, ∃ crt ∈ crts, crt.name = n
          ∧ crt.field_set_type.is_applicable t
          ∧ crt.field_set_type.create t = x by
    simpa using h []
  induction targets with
  | nil => simp
  | cons t ts ih =>
    intro s
    simp only [List.foldl_cons]
    rw [ih, mem_inner_fold]
    simp only [List.mem_cons]
    constructor
    · rintro ((hx | ⟨c, hcm, hcp⟩) | ⟨t', ht', hrest⟩)
      · exact Or.inl hx
      · exact Or.inr ⟨t, Or.inl rfl, c, hcm, hcp⟩
      · exact Or.inr ⟨t', Or.inr ht', hrest⟩
    · rintro (hx | ⟨t', (rfl | ht'), hrest⟩)
      · exact Or.inl (Or.inl hx)
      · exact Or.inl (Or.inr hrest)
      · exact Or.inr ⟨t', ht', hrest⟩

/-- The inner classification fold preserves freedom from duplicates of
the accumulated group. -/
theorem inner_fold_nodup (crts : List (BSPCompileRequestType Target FieldSet))
    (t : Target) (n : String) {s : List FieldSet} (hs : s.Nodup) :
    (crts.foldl (fun s crt =>
        if crt.name = n ∧ crt.field_set_type.is_applicable t
        then addFS s (crt.field_set_type.create t) else s) s).Nodup := by
  induction crts generalizing s with
  | nil => exact hs
  | cons crt rest ih =>
    simp only [List.foldl_cons]
    by_cases hc : crt.name = n ∧ crt.field_set_type.is_applicable t
    · rw [if_pos hc]
      exact ih (addFS_nodup hs _)
    · rw [if_neg hc]
      exact ih hs

/-- A per-kind group never contains duplicate field sets. -/
theorem groupFS_nodup (crts : List (BSPCompileRequestType Target FieldSet))
    (targets : List Target) (n : String) :
    (groupFS crts targets n).Nodup := by
  unfold groupFS
  suffices h : ∀ s : List FieldSet, s.Nodup → (targets.foldl (fun s t =>
      crts.foldl (fun s crt =>
        if crt.name = n ∧ crt.field_set_type.is_applicable t
        then addFS s (crt.field_set_type.create t) else s) s) s).Nodup from
    h [] (by simp)
  induction targets with
  | nil => exact fun s hs => hs
  | cons t ts ih =>
    intro s hs
    simp only [List.foldl_cons]
    exact ih _ (inner_fold_nodup crts t n hs)

/-- The keys of the dictionary after an add. -/
theorem keys_dictAdd (d : List (String × List FieldSet)) (k : String) (f : FieldSet) :
    (dictAdd d k f).map Prod.fst
      = if k ∈ d.map Prod.fst then d.map Prod.fst else d.map Prod.fst ++ [k] := by
  induction d with
  | nil => simp [dictAdd]
  | cons g rest ih =>
    obtain ⟨k', s⟩ := g
    by_cases hk : k' = k
    · subst hk
      simp [dictAdd]
    · by_cases hm : k ∈ rest.map Prod.fst
      · simp [dictAdd, hk, ih, hm, Ne.symm hk]
      · simp [dictAdd, hk, ih, hm, Ne.symm hk]

/-- Membership among the dictionary keys after an add. -/
theorem mem_keys_dictAdd (d : List (String × List FieldSet)) (k k' : String) (f : FieldSet) :
    k' ∈ (dictAdd d k f).map Prod.fst ↔ k' ∈ d.map Prod.fst ∨ k' = k := by
  rw [keys_dictAdd]
  by_cases hm : k ∈ d.map Prod.fst
  · rw [if_pos hm]
    constructor
    · exact Or.inl
    · rintro (h | rfl)
      · exact h
      · exact hm
  · rw [if_neg hm]
    simp [List.mem_append]

/-- An add preserves freedom from duplicates among the keys. -/
theorem keys_dictAdd_nodup {d : List (String × List FieldSet)}
    (hd : (d.map Prod.fst).Nodup) (k : String) (f : FieldSet) :
    ((dictAdd d k f).map Prod.fst).Nodup := by
  rw [keys_dictAdd]
  by_cases hm : k ∈ d.map Prod.fst
  · rw [if_pos hm]; exact hd
  · rw [if_neg hm]
    simp [List.nodup_append, hd, hm]

/-- The inner classification fold preserves key distinctness. -/
theorem inner_fold_keys_nodup (crts : List (BSPCompileRequestType Target FieldSet))
    (t : Target) {d : List (String × List FieldSet)} (hd : (d.map Prod.fst).Nodup) :
    (((crts.foldl (fun d crt =>
        if crt.field_set_type.is_applicable t
        then dictAdd d crt.name (crt.field_set_type.create t) else d) d)).map
      Prod.fst).Nodup := by
  induction crts generalizing d with
  | nil => exact hd
  | cons crt rest ih =>
    simp only [List.foldl_cons]
    by_cases happ : crt.field_set_type.is_applicable t
    · rw [if_pos happ]
      exact ih (keys_dictAdd_nodup hd _ _)
    · rw [if_neg (by simpa using happ)]
      exact ih hd

/-- The classification dictionary has pairwise-distinct keys: each
request type owns at most one entry. -/
theorem classify_keys_nodup (crts : List (BSPCompileRequestType Target FieldSet))
    (targets : List Target) :
    ((classify crts targets).map Prod.fst).Nodup := by
  unfold classify
  suffices h : ∀ d : List (String × List FieldSet), (d.map Prod.fst).Nodup →
      ((targets.foldl (fun d target =>
        crts.foldl (fun d crt =>
          if crt.field_set_type.is_applicable target
          then dictAdd d crt.name (crt.field_set_type.create target) else d) d) d).map
        Prod.fst).Nodup from
    h [] (by simp)
  induction targets with
  | nil => exact fun d hd => hd
  | cons t ts ih =>
    intro d hd
    simp only [List.foldl_cons]
    exact ih _ (inner_fold_keys_nodup crts t hd)

/-- Key membership through the inner classification fold. -/
theorem mem_keys_inner_fold (crts : List (BSPCompileRequestType Target FieldSet))
    (t : Target) (n : String) (d : List (String × List FieldSet)) :
    n ∈ ((crts.foldl (fun d crt =>
        if crt.field_set_type.is_applicable t
        then dictAdd d crt.name (crt.field_set_type.create t) else d) d)).map Prod.fst
      ↔ n ∈ d.map Prod.fst
        ∨ ∃ crt ∈ crts, crt.name = n ∧ crt.field_set_type.is_applicable t := by
  induction crts generalizing d with
  | nil => simp
  | cons crt rest ih =>
    simp only [List.foldl_cons]
    by_cases happ : crt.field_set_type.is_applicable t
    · rw [if_pos happ, ih]
      simp only [mem_keys_dictAdd, List.mem_cons]
      constructor
      · rintro ((hm | rfl) | ⟨c, hcm, hcp⟩)
        · exact Or.inl hm
        · exact Or.inr ⟨crt, Or.inl rfl, rfl, happ⟩
        · exact Or.inr ⟨c, Or.inr hcm, hcp⟩
      · rintro (hm | ⟨c, (rfl | hcm), hcp⟩)
        · exact Or.inl (Or.inl hm)
        · exact Or.inl (Or.inr hcp.1.symm)
        · exact Or.inr ⟨c, hcm, hcp⟩
    · rw [if_neg (by simpa using happ), ih]
      simp only [List.mem_cons]
      constructor
      · rintro (hm | ⟨c, hcm, hcp⟩)
        · exact Or.inl hm
        · exact Or.inr ⟨c, Or.inr hcm, hcp⟩
      · rintro (hm | ⟨c, (rfl | hcm), hcp⟩)
        · exact Or.inl hm
        · exact absurd hcp.2 (by simpa using happ)
        · exact Or.inr ⟨c, hcm, hcp⟩

/-- A request-type name keys an entry of the classification dictionary
iff some registered type with that name matches some resolved target. -/
theorem mem_keys_classify (crts : List (BSPCompileRequestType Target FieldSet))
    (targets : List Target) (n : String) :
    n ∈ (classify crts targets).map Prod.fst
      ↔ ∃ t ∈ targets, ∃ crt ∈ crts, crt.name = n
          ∧ crt.field_set_type.is_applicable t := by
  unfold classify
  suffices h : ∀ d : List (String × List FieldSet), n ∈ ((targets.foldl (fun d target =>
      crts.foldl (fun d crt =>
        if crt.field_set_type.is_applicable target
        then dictAdd d crt.name (crt.field_set_type.create target) else d) d) d).map
      Prod.fst)
      ↔ n ∈ d.map Prod.fst ∨ ∃ t ∈ targets, ∃ crt ∈ crts, crt.name = n
          ∧ crt.field_set_type.is_applicable t by
    have h0 := h []
    simp only [List.map_nil, List.not_mem_nil, false_or] at h0
    exact h0
  induction targets with
  | nil => simp
  | cons t ts ih =>
    intro d
    simp only [List.foldl_cons]
    rw [ih, mem_keys_inner_fold]
    simp only [List.mem_cons]
    constructor
    · rintro ((hm | ⟨c, hcm, hcp⟩) | ⟨t', ht', hrest⟩)
      · exact Or.inl hm
      · exact Or.inr ⟨t, Or.inl rfl, c, hcm, hcp⟩
      · exact Or.inr ⟨t', Or.inr ht', hrest⟩
    · rintro (hm | ⟨t', (rfl | ht'), hrest⟩)
      · exact Or.inl (Or.inl hm)
      · exact Or.inl (Or.inr hrest)
      · exact Or.inr ⟨t', ht', hrest⟩

/-- In a list with pairwise-distinct first components, the number of
entries with first component `n` is 1 or 0 according to membership. -/
theorem countP_fst_of_keys_nodup (l : List (String × List FieldSet)) (n : String)
    (h : (l.map Prod.fst).Nodup) :
    l.countP (fun g => g.1 = n) = if n ∈ l.map Prod.fst then 1 else 0 := by
  induction l with
  | nil => simp
  | cons g rest ih =>
    simp only [List.map_cons, List.nodup_cons] at h
    obtain ⟨hg, hrest⟩ := h
    rw [List.countP_cons]
    by_cases hgn : g.1 = n
    · subst hgn
      have hz : rest.countP (fun g' => g'.1 = g.1) = 0 := by
        rw [List.countP_eq_zero]
        intro g' hg'
        simp only [decide_eq_true_eq]
        intro hc
        exact hg (hc ▸ List.mem_map_of_mem Prod.fst hg')
      simp [hz]
    · rw [ih hrest]
      have hmem : (n ∈ g.1 :: List.map Prod.fst rest) ↔ n ∈ List.map Prod.fst rest := by
        rw [List.mem_cons]
        constructor
        · rintro (heq | hm)
          · exact absurd heq (Ne.symm hgn)
          · exact hm
        · exact fun hm => Or.inr hm
      simp only [decide_eq_true_eq, hgn, if_false, Nat.add_zero, List.map_cons, hmem]

/-- A key of the dictionary owns an entry whose group is its lookup. -/
theorem exists_entry_of_mem_keys (l : List (String × List FieldSet)) (n : String)
    (h : n ∈ l.map Prod.fst) :
    ∃ g ∈ l, g.1 = n ∧ g.2 = dictGet l n := by
  induction l with
  | nil => simp at h
  | cons g rest ih =>
    obtain ⟨k, s⟩ := g
    by_cases hg : k = n
    · subst hg
      exact ⟨(k, s), List.mem_cons_self _ _, rfl, by rw [dictGet_cons, if_pos rfl]⟩
    · have h' : n ∈ rest.map Prod.fst := by
        rcases List.mem_cons.mp h with heq | hm
        · exact absurd heq.symm hg
        · exact hm
      obtain ⟨g', hg', hname, hget⟩ := ih h'
      exact ⟨g', List.mem_cons_of_mem _ hg', hname,
        by rw [hget, dictGet_cons, if_neg hg]⟩

end ClassifyLemmas

/-- C1: for every set of backend/target results, the aggregate status
(the per-target aggregate of `compile_bsp_target`, lines 86-88, and the
batch aggregate of `bsp_compile_request`, lines 138-140, both of which
are `aggregateStatus`) equals `OK` iff every constituent result has
status `OK`, and the aggregate is invariant under any permutation of
the result list. -/
theorem aggregate_status_worst_of :
    (∀ rs : List BSPCompileResult,
      aggregateStatus rs = .ok ↔ ∀ r ∈ rs, r.status = .ok)
    ∧ (∀ rs rs' : List BSPCompileResult, rs.Perm rs' →
        aggregateStatus rs = aggregateStatus rs')
    ∧ (∀ {Target FieldSet : Type} [DecidableEq FieldSet]
        (env : DispatchEnv Target FieldSet) (request : CompileOneBSPTargetRequest)
        (task_id : TaskId) (t1 t2 : Int) (r : BSPCompileResult),
        (compile_bsp_target env request task_id t1 t2).result = .ok r →
        r.status = aggregateStatus (dispatchResults env request))
    ∧ (∀ {Target FieldSet : Type} [DecidableEq FieldSet]
        (env : BatchEnv Target FieldSet) (request : CompileParams)
        (bsp_targets : List BSPBuildTargetInternal)
        (rs : List BSPCompileResult) (resp : CompileResult),
        gatherAll env.resolve request.targets = .ok bsp_targets →
        gatherAll (fun r => r.result) (batchRuns env request bsp_targets) = .ok rs →
        (bsp_compile_request env request).response = .ok resp →
        resp.status_code = (aggregateStatus rs).value) := by
  refine ⟨?_, ?_, ?_, ?_⟩
  · intro rs
    simp only [aggregateStatus]
    split
    · next h =>
      simp only [List.any_eq_true, decide_eq_true_eq] at h
      obtain ⟨r, hr, hne⟩ := h
      constructor
      · intro habs; exact absurd habs (by simp)
      · intro hall; exact absurd (hall r hr) hne
    · next h =>
      simp only [List.any_eq_true, decide_eq_true_eq, not_exists] at h
      constructor
      · intro _ r hr
        by_contra hne
        exact (h r) ⟨hr, hne⟩
      · intro _; rfl
  · intro rs rs' h
    simp only [aggregateStatus]
    by_cases hb : rs.any (fun r => decide (r.status ≠ StatusCode.ok)) = true
    · have hb' : rs'.any (fun r => decide (r.status ≠ StatusCode.ok)) = true := by
        rw [List.any_eq_true] at hb ⊢
        obtain ⟨r, hr, hp⟩ := hb
        exact ⟨r, h.mem_iff.mp hr, hp⟩
      rw [hb, hb']
    · have hb' : ¬ rs'.any (fun r => decide (r.status ≠ StatusCode.ok)) = true := by
        rw [List.any_eq_true] at hb ⊢
        intro ⟨r, hr, hp⟩
        exact hb ⟨r, h.mem_iff.mpr hr, hp⟩
      rw [Bool.eq_false_iff.mpr hb, Bool.eq_false_iff.mpr hb']
  · intro T F _ env request task_id t1 t2 r hres
    simp only [compile_bsp_target] at hres
    split at hres
    · exact absurd hres (by simp)
    · next d hm =>
      obtain rfl : _ = r := by injection hres
      rfl
  · intro T F _ env request bsp_targets rs resp h1 h2 h3
    simp only [bsp_compile_request, h1] at h3
    simp only [h2] at h3
    split at h3
    · exact absurd h3 (by simp)
    · next d hm =>
      obtain rfl : _ = resp := by injection h3
      rfl

/-- Witness for C1: the aggregation evaluated on concrete results and
on the concrete per-target and batch runs. -/
theorem aggregate_status_worst_of_witness :
    (aggregateStatus [resOk, resErr] = .ok ↔ ∀ r ∈ [resOk, resErr], r.status = .ok)
    ∧ aggregateStatus [resOk, resErr] = aggregateStatus [resErr, resOk]
    ∧ (BSPCompileResult.status { status := .ok, output_digest := [("out/f", "h")] }
        = aggregateStatus (dispatchResults envShared sampleRequest))
    ∧ (CompileResult.status_code { origin_id := some "origin-1", status_code := 1 }
        = (aggregateStatus [{ status := .ok, output_digest := [("out/f", "h")] }]).value) :=
  ⟨aggregate_status_worst_of.1 [resOk, resErr],
   aggregate_status_worst_of.2.1 [resOk, resErr] [resErr, resOk] (List.Perm.swap resErr resOk []),
   aggregate_status_worst_of.2.2.1 envShared sampleRequest sampleTaskId 0 0 _ rfl,
   aggregate_status_worst_of.2.2.2 batchEnvOk sampleParams
     [{ name := "t", bsp_target_id := sampleTargetId }]
     [{ status := .ok, output_digest := [("out/f", "h")] }]
     { origin_id := some "origin-1", status_code := 1 } rfl rfl rfl⟩

/-- C2: every run of the per-target dispatcher emits exactly one
`TaskStart` and exactly one `TaskFinish` notification, both carrying
the task id minted for that run; the `TaskStart` precedes every backend
compile sub-request, and the `TaskFinish` follows all of them and is
part of the trace completed before the result is returned. -/
theorem one_start_one_finish [DecidableEq FieldSet] (env : DispatchEnv Target FieldSet)
    (request : CompileOneBSPTargetRequest) (task_id : TaskId) (t1 t2 : Int) :
    ∃ (mid : List (Event FieldSet)) (b1 b2 : Bool),
      (compile_bsp_target env request task_id t1 t2).events
        = Event.notified (.start (startParamsOf request task_id t1)) b1
            :: (mid
              ++ [Event.notified (.finish (finishParamsOf request task_id t2
                    (aggregateStatus (dispatchResults env request)))) b2])
      ∧ (∀ e ∈ mid, ∃ k fs, e = Event.invoked k fs)
      ∧ (startParamsOf request task_id t1).task_id = task_id
      ∧ (finishParamsOf request task_id t2
          (aggregateStatus (dispatchResults env request))).task_id = task_id
      ∧ (compile_bsp_target env request task_id t1 t2).events.countP Event.isStart = 1
      ∧ (compile_bsp_target env request task_id t1 t2).events.countP Event.isFinish = 1 := by
  have hevents : (compile_bsp_target env request task_id t1 t2).events
      = Event.notified (.start (startParamsOf request task_id t1))
          (env.sink (.start (startParamsOf request task_id t1)))
        :: ((dispatchCalls env request).map (fun c => Event.invoked c.1 c.2)
          ++ [Event.notified (.finish (finishParamsOf request task_id t2
                (aggregateStatus (dispatchResults env request))))
              (env.sink (.finish (finishParamsOf request task_id t2
                (aggregateStatus (dispatchResults env request)))))]) := by
    show dispatchEvents env request task_id t1 t2 = _
    rw [dispatchEvents]
    exact List.cons_append _ _ _
  refine ⟨(dispatchCalls env request).map (fun c => Event.invoked c.1 c.2),
    env.sink (.start (startParamsOf request task_id t1)),
    env.sink (.finish (finishParamsOf request task_id t2
      (aggregateStatus (dispatchResults env request)))),
    hevents, ?_, rfl, rfl, ?_, ?_⟩
  · intro e he
    simp only [List.mem_map] at he
    obtain ⟨c, _, rfl⟩ := he
    exact ⟨c.1, c.2, rfl⟩
  · simp [compile_bsp_target, dispatchEvents, List.countP_cons, List.countP_append,
      List.countP_map, Event.isStart, Function.comp_def, List.countP_eq_zero]
  · simp [compile_bsp_target, dispatchEvents, List.countP_cons, List.countP_append,
      List.countP_map, Event.isFinish, Function.comp_def, List.countP_eq_zero]

/-- Witness for C2: the dispatcher run on the concrete two-kind
environment. -/
theorem one_start_one_finish_witness :
    ∃ (mid : List (Event Nat)) (b1 b2 : Bool),
      (compile_bsp_target envTwoKinds sampleRequest sampleTaskId 0 0).events
        = Event.notified (.start (startParamsOf sampleRequest sampleTaskId 0)) b1
            :: (mid
              ++ [Event.notified (.finish (finishParamsOf sampleRequest sampleTaskId 0
                    (aggregateStatus (dispatchResults envTwoKinds sampleRequest)))) b2])
      ∧ (∀ e ∈ mid, ∃ k fs, e = Event.invoked k fs)
      ∧ (startParamsOf sampleRequest sampleTaskId 0).task_id = sampleTaskId
      ∧ (finishParamsOf sampleRequest sampleTaskId 0
          (aggregateStatus (dispatchResults envTwoKinds sampleRequest))).task_id = sampleTaskId
      ∧ (compile_bsp_target envTwoKinds sampleRequest sampleTaskId 0 0).events.countP
          Event.isStart = 1
      ∧ (compile_bsp_target envTwoKinds sampleRequest sampleTaskId 0 0).events.countP
          Event.isFinish = 1 :=
  one_start_one_finish envTwoKinds sampleRequest sampleTaskId 0 0

/-- C8: the `TaskFinish` notification's report always carries error
count 0 and warning count 0 (lines 98-99), whatever the backend
results, and passes the request's target identifier and `origin_id`
through unmodified (lines 96-97). -/
theorem finish_report_zero_counts [DecidableEq FieldSet] (env : DispatchEnv Target FieldSet)
    (request : CompileOneBSPTargetRequest) (task_id : TaskId) (t1 t2 : Int) :
    (∀ (fp : TaskFinishParams) (b : Bool),
      Event.notified (.finish fp) b ∈ (compile_bsp_target env request task_id t1 t2).events →
        fp.data = { target := request.bsp_target.bsp_target_id
                    origin_id := request.origin_id, errors := 0, warnings := 0 })
    ∧ ∃ b : Bool,
        Event.notified (.finish (finishParamsOf request task_id t2
            (aggregateStatus (dispatchResults env request)))) b
          ∈ (compile_bsp_target env request task_id t1 t2).events := by
  constructor
  · intro fp b hmem
    have hmem' : Event.notified (.finish fp) b ∈ dispatchEvents env request task_id t1 t2 :=
      hmem
    rw [dispatchEvents] at hmem'
    rcases List.mem_cons.mp hmem' with h | hrest
    · exact absurd h (by simp)
    rcases List.mem_append.mp hrest with hmid | hlast
    · obtain ⟨c, -, hc⟩ := List.mem_map.mp hmid
      exact absurd hc (by simp)
    · rw [List.mem_singleton] at hlast
      have hfp : fp = finishParamsOf request task_id t2
          (aggregateStatus (dispatchResults env request)) := by
        injection hlast.symm with h1 _
        injection h1 with h2
        exact h2.symm
      rw [hfp]
      rfl
  · refine ⟨env.sink (.finish (finishParamsOf request task_id t2
      (aggregateStatus (dispatchResults env request)))), ?_⟩
    show _ ∈ dispatchEvents env request task_id t1 t2
    rw [dispatchEvents]
    exact List.mem_cons_of_mem _ (List.mem_append_right _ (List.mem_singleton.mpr rfl))

/-- Witness for C8: the report of the concrete two-kind run. -/
theorem finish_report_zero_counts_witness :
    (∀ (fp : TaskFinishParams) (b : Bool),
      Event.notified (.finish fp) b
          ∈ (compile_bsp_target envTwoKinds sampleRequest sampleTaskId 0 0).events →
        fp.data = { target := sampleRequest.bsp_target.bsp_target_id
                    origin_id := sampleRequest.origin_id, errors := 0, warnings := 0 })
    ∧ ∃ b : Bool,
        Event.notified (.finish (finishParamsOf sampleRequest sampleTaskId 0
            (aggregateStatus (dispatchResults envTwoKinds sampleRequest)))) b
          ∈ (compile_bsp_target envTwoKinds sampleRequest sampleTaskId 0 0).events :=
  finish_report_zero_counts envTwoKinds sampleRequest sampleTaskId 0 0

/-- C9: the delivery outcome of the notification sink never affects the
compile outcome: with any two sinks (and in particular a failing one),
the dispatcher returns the same result and performs the same observable
actions.  The sink's return value is structurally discarded by the
dispatcher, exactly as `bsp_context.notify_client(...)` is called for
effect only at lines 69 and 90. -/
theorem sink_outcome_irrelevant [DecidableEq FieldSet] (env : DispatchEnv Target FieldSet)
    (sink1 sink2 : TaskNotification → Bool) (request : CompileOneBSPTargetRequest)
    (task_id : TaskId) (t1 t2 : Int) :
    ((compile_bsp_target { env with sink := sink1 } request task_id t1 t2).result
      = (compile_bsp_target { env with sink := sink2 } request task_id t1 t2).result)
    ∧ ((compile_bsp_target { env with sink := sink1 } request task_id t1 t2).events.map observe
      = (compile_bsp_target { env with sink := sink2 } request task_id t1 t2).events.map
          observe) := by
  have h1 : ∀ s : TaskNotification → Bool,
      (compile_bsp_target { env with sink := s } request task_id t1 t2).events.map observe
        = ObservedEvent.notified (.start (startParamsOf request task_id t1))
            :: (dispatchCalls env request).map (fun c => ObservedEvent.invoked c.1 c.2)
            ++ [ObservedEvent.notified (.finish (finishParamsOf request task_id t2
                  (aggregateStatus (dispatchResults env request))))] := by
    intro s
    have hc : dispatchCalls { env with sink := s } request = dispatchCalls env request := rfl
    have hr : dispatchResults { env with sink := s } request = dispatchResults env request := rfl
    show (dispatchEvents { env with sink := s } request task_id t1 t2).map observe = _
    rw [dispatchEvents]
    simp only [hc, hr, List.map_cons, List.map_append, List.map_map, List.map_cons,
      List.map_nil, observe, Function.comp_def]
  exact ⟨rfl, (h1 sink1).trans (h1 sink2).symm⟩

/-- C10: the `TaskFinish` notification (whose status is computed from
the backend statuses alone) is emitted before the output digests are
merged: the event trace of `compile_bsp_target` is exactly
`dispatchEvents`, a function of the pre-merge data only, whether the
merge of line 104 succeeds or fails.  Concretely, on the environment
whose two backends both succeed but collide on the path `out/a`, the
full start/invoke/finish trace is emitted with `TaskFinish` status
`OK`, yet the dispatch fails with a merge error and returns no result. -/
theorem finish_emitted_before_merge :
    (∀ {Target FieldSet : Type} [DecidableEq FieldSet]
      (env : DispatchEnv Target FieldSet) (request : CompileOneBSPTargetRequest)
      (task_id : TaskId) (t1 t2 : Int),
      (compile_bsp_target env request task_id t1 t2).events
        = dispatchEvents env request task_id t1 t2)
    ∧ (compile_bsp_target envTwoKinds sampleRequest sampleTaskId 0 0).result
        = .error ⟨"out/a"⟩
    ∧ dispatchEvents envTwoKinds sampleRequest sampleTaskId 0 0
        = [Event.notified
             (.start
               { task_id := sampleTaskId, event_time := 0,
                 data := { target := sampleTargetId } })
             true,
           Event.invoked "kindA" [0],
           Event.invoked "kindB" [100],
           Event.notified
             (.finish
               { task_id := sampleTaskId, event_time := 0, status := .ok,
                 data := { target := sampleTargetId, origin_id := some "origin-1",
                           errors := 0, warnings := 0 } })
             true] :=
  ⟨fun _ _ _ _ _ => rfl, rfl, rfl⟩

/-- When no registered request type matches any target, the
classification double loop never touches the dictionary. -/
theorem inner_fold_id [DecidableEq FieldSet]
    (crts : List (BSPCompileRequestType Target FieldSet)) (t : Target)
    (h : ∀ crt ∈ crts, crt.field_set_type.is_applicable t = false) :
    ∀ d, crts.foldl (fun d crt =>
        if crt.field_set_type.is_applicable t
        then dictAdd d crt.name (crt.field_set_type.create t) else d) d = d := by
  induction crts with
  | nil => intro d; rfl
  | cons crt rest ih =>
    intro d
    simp only [List.foldl_cons]
    rw [if_neg (by simp [h crt (List.mem_cons_self _ _)])]
    exact ih (fun c hc => h c (List.mem_cons_of_mem _ hc)) d

/-- When no registered request type matches any target, the
classification dictionary stays empty. -/
theorem classify_eq_nil [DecidableEq FieldSet]
    (crts : List (BSPCompileRequestType Target FieldSet)) (targets : List Target)
    (h : ∀ t ∈ targets, ∀ crt ∈ crts, crt.field_set_type.is_applicable t = false) :
    classify crts targets = [] := by
  unfold classify
  induction targets with
  | nil => rfl
  | cons t ts ih =>
    simp only [List.foldl_cons]
    rw [inner_fold_id crts t (h t (List.mem_cons_self _ _))]
    exact ih (fun t' ht' crt hcrt => h t' (List.mem_cons_of_mem _ ht') crt hcrt)

/-- C3: if no registered request type's field-set type is applicable to
any resolved target, the dispatcher issues no backend compile
sub-request and returns status `OK` with the empty output tree. -/
theorem no_applicable_kind_ok_empty [DecidableEq FieldSet]
    (env : DispatchEnv Target FieldSet) (request : CompileOneBSPTargetRequest)
    (task_id : TaskId) (t1 t2 : Int)
    (h : ∀ t ∈ env.resolveTargets request.bsp_target, ∀ crt ∈ env.compile_request_types,
      crt.field_set_type.is_applicable t = false) :
    dispatchCalls env request = []
    ∧ (compile_bsp_target env request task_id t1 t2).events.countP Event.isInvoke = 0
    ∧ (compile_bsp_target env request task_id t1 t2).result
        = .ok { status := .ok, output_digest := EMPTY_DIGEST } := by
  have hcls : classify env.compile_request_types (env.resolveTargets request.bsp_target)
      = [] := classify_eq_nil _ _ h
  have hcalls : dispatchCalls env request = [] := by
    rw [dispatchCalls, hcls]
    rfl
  have hres : dispatchResults env request = [] := by
    rw [dispatchResults, hcalls]
    rfl
  refine ⟨hcalls, ?_, ?_⟩
  · show (dispatchEvents env request task_id t1 t2).countP Event.isInvoke = 0
    rw [dispatchEvents]
    rw [hcalls]
    simp [List.countP_cons, List.countP_append, Event.isInvoke]
  · simp only [compile_bsp_target]
    rw [hres]
    rfl

/-- Witness for C3: the run on the environment whose only registered
kind applies to no target. -/
theorem no_applicable_kind_ok_empty_witness :
    (∀ t ∈ envNone.resolveTargets sampleBSPTarget, ∀ crt ∈ envNone.compile_request_types,
      crt.field_set_type.is_applicable t = false)
    ∧ dispatchCalls envNone sampleRequest = []
    ∧ (compile_bsp_target envNone sampleRequest sampleTaskId 0 0).events.countP
        Event.isInvoke = 0
    ∧ (compile_bsp_target envNone sampleRequest sampleTaskId 0 0).result
        = .ok { status := .ok, output_digest := EMPTY_DIGEST } := by
  have h : ∀ t ∈ envNone.resolveTargets sampleBSPTarget,
      ∀ crt ∈ envNone.compile_request_types,
      crt.field_set_type.is_applicable t = false := by
    intro t ht crt hcrt
    have : crt = kindNever := by simpa [envNone] using hcrt
    subst this
    rfl
  have hc := no_applicable_kind_ok_empty envNone sampleRequest sampleTaskId 0 0 h
  exact ⟨h, hc.1, hc.2.1, hc.2.2⟩

/-- The count of backend sub-requests addressed to the name `n` equals
the count of classification entries keyed `n`. -/
theorem countP_invokeFor [DecidableEq FieldSet] (env : DispatchEnv Target FieldSet)
    (request : CompileOneBSPTargetRequest) (task_id : TaskId) (t1 t2 : Int) (n : String) :
    (compile_bsp_target env request task_id t1 t2).events.countP (Event.isInvokeFor n)
      = (classify env.compile_request_types (env.resolveTargets request.bsp_target)).countP
          (fun g => g.1 = n) := by
  show (dispatchEvents env request task_id t1 t2).countP (Event.isInvokeFor n) = _
  rw [dispatchEvents]
  simp only [dispatchCalls, List.countP_cons, List.countP_append, List.countP_map,
    List.countP_nil, Function.comp_def]
  simp [Event.isInvokeFor]

/-- C4: within one dispatch, every registered compile-request type
receives at most one backend sub-request; when some resolved target
matches it (in particular when two or more do), it receives exactly
one, whose field-set tuple enumerates the deduplicated union of the
field sets extracted from all matched targets. -/
theorem once_per_kind [DecidableEq FieldSet] (env : DispatchEnv Target FieldSet)
    (request : CompileOneBSPTargetRequest) (task_id : TaskId) (t1 t2 : Int)
    (K : BSPCompileRequestType Target FieldSet) (hK : K ∈ env.compile_request_types)
    (hnames : (env.compile_request_types.map (fun c => c.name)).Nodup) :
    ((compile_bsp_target env request task_id t1 t2).events.countP
        (Event.isInvokeFor K.name) ≤ 1)
    ∧ (groupFS env.compile_request_types (env.resolveTargets request.bsp_target)
        K.name).Nodup
    ∧ (∀ x, x ∈ groupFS env.compile_request_types (env.resolveTargets request.bsp_target)
          K.name
        ↔ ∃ t ∈ env.resolveTargets request.bsp_target,
            K.field_set_type.is_applicable t ∧ K.field_set_type.create t = x)
    ∧ ((∃ t ∈ env.resolveTargets request.bsp_target, K.field_set_type.is_applicable t) →
        (compile_bsp_target env request task_id t1 t2).events.countP
            (Event.isInvokeFor K.name) = 1
        ∧ Event.invoked K.name
            (env.enumSet (groupFS env.compile_request_types
              (env.resolveTargets request.bsp_target) K.name))
          ∈ (compile_bsp_target env request task_id t1 t2).events) := by
  have hinj : ∀ crt ∈ env.compile_request_types, crt.name = K.name → crt = K :=
    fun crt hcrt heq => List.inj_on_of_nodup_map hnames hcrt hK heq
  have hcount := countP_invokeFor env request task_id t1 t2 K.name
  have hkeys := classify_keys_nodup env.compile_request_types
    (env.resolveTargets request.bsp_target)
  have hcnt := countP_fst_of_keys_nodup
    (classify env.compile_request_types (env.resolveTargets request.bsp_target)) K.name hkeys
  refine ⟨?_, groupFS_nodup _ _ _, ?_, ?_⟩
  · rw [hcount, hcnt]
    split
    · exact le_refl 1
    · exact Nat.zero_le 1
  · intro x
    rw [mem_groupFS]
    constructor
    · rintro ⟨t, ht, crt, hcrt, hname, happ, hcr⟩
      obtain rfl := hinj crt hcrt hname
      exact ⟨t, ht, happ, hcr⟩
    · rintro ⟨t, ht, happ, hcr⟩
      exact ⟨t, ht, K, hK, rfl, happ, hcr⟩
  · rintro ⟨t, ht, happ⟩
    have hmemkey : K.name ∈ (classify env.compile_request_types
        (env.resolveTargets request.bsp_target)).map Prod.fst :=
      (mem_keys_classify _ _ _).mpr ⟨t, ht, K, hK, rfl, happ⟩
    constructor
    · rw [hcount, hcnt, if_pos hmemkey]
    · obtain ⟨g, hg, hgname, hgget⟩ := exists_entry_of_mem_keys _ _ hmemkey
      have hgrp : g.2 = groupFS env.compile_request_types
          (env.resolveTargets request.bsp_target) K.name := by
        rw [hgget, classify_get]
      show _ ∈ dispatchEvents env request task_id t1 t2
      rw [dispatchEvents]
      refine List.mem_cons_of_mem _ (List.mem_append_left _ ?_)
      refine List.mem_map.mpr ⟨(g.1, env.enumSet g.2), ?_, by rw [hgname, hgrp]⟩
      exact List.mem_map.mpr ⟨g, hg, rfl⟩

/-- Witness for C4: `kindAlpha` matches both resolved targets of
`envShared` and is invoked exactly once with the union `[3, 4]`. -/
theorem once_per_kind_witness :
    (kindAlpha ∈ envShared.compile_request_types
      ∧ (envShared.compile_request_types.map (fun c => c.name)).Nodup
      ∧ ∃ t ∈ envShared.resolveTargets sampleRequest.bsp_target,
          kindAlpha.field_set_type.is_applicable t)
    ∧ ((compile_bsp_target envShared sampleRequest sampleTaskId 0 0).events.countP
        (Event.isInvokeFor kindAlpha.name) = 1
      ∧ Event.invoked kindAlpha.name
          (envShared.enumSet (groupFS envShared.compile_request_types
            (envShared.resolveTargets sampleRequest.bsp_target) kindAlpha.name))
        ∈ (compile_bsp_target envShared sampleRequest sampleTaskId 0 0).events) := by
  have hK : kindAlpha ∈ envShared.compile_request_types := List.mem_cons_self _ _
  have hnames : (envShared.compile_request_types.map (fun c => c.name)).Nodup := by
    simp [envShared]
  have hex : ∃ t ∈ envShared.resolveTargets sampleRequest.bsp_target,
      kindAlpha.field_set_type.is_applicable t := ⟨3, by simp [envShared], rfl⟩
  exact ⟨⟨hK, hnames, hex⟩,
    (once_per_kind envShared sampleRequest sampleTaskId 0 0 kindAlpha hK hnames).2.2.2 hex⟩

/-- With pairwise-distinct keys, every entry of the dictionary is the
one its key looks up. -/
theorem dictGet_of_mem_keys_nodup [DecidableEq FieldSet]
    (l : List (String × List FieldSet)) (g : String × List FieldSet)
    (hg : g ∈ l) (h : (l.map Prod.fst).Nodup) :
    dictGet l g.1 = g.2 := by
  induction l with
  | nil => cases hg
  | cons a rest ih =>
    obtain ⟨k, s⟩ := a
    rcases List.mem_cons.mp hg with rfl | hm
    · rw [dictGet_cons, if_pos rfl]
    · simp only [List.map_cons, List.nodup_cons] at h
      obtain ⟨hk, hrest⟩ := h
      rw [dictGet_cons, if_neg ?_, ih hm hrest]
      intro heq
      exact hk (heq ▸ List.mem_map_of_mem Prod.fst hm)

/-- Counterexample for C5: the very same input (`envSharedRev` differs
from `envShared` only in the Python set-iteration draw, and both draws
are admissible enumerations of the set, i.e. permutations) produces the
per-kind field-set tuples in two different orders on two runs of the
classifier; the order is not deterministic across runs. -/
theorem fieldset_order_unstable_counterexample :
    (∀ l : List Nat, (envShared.enumSet l).Perm l)
    ∧ (∀ l : List Nat, (envSharedRev.enumSet l).Perm l)
    ∧ envSharedRev = { envShared with enumSet := envSharedRev.enumSet }
    ∧ dispatchCalls envShared sampleRequest = [("kindA", [3, 4])]
    ∧ dispatchCalls envSharedRev sampleRequest = [("kindA", [4, 3])]
    ∧ dispatchCalls envShared sampleRequest ≠ dispatchCalls envSharedRev sampleRequest :=
  ⟨fun l => List.Perm.refl l, fun l => List.reverse_perm l, rfl, rfl, rfl, by decide⟩

/-- C5 as amended: the per-kind group is deduplicated and its contents
are determined by the input, but its order is only stable up to the
set-enumeration draw: two runs with any two admissible enumerations
produce, kind for kind, tuples that are permutations of each other and
free of duplicates — not necessarily equal. -/
theorem fieldset_groups_stable_up_to_perm [DecidableEq FieldSet]
    (env : DispatchEnv Target FieldSet) (request : CompileOneBSPTargetRequest)
    (e1 e2 : List FieldSet → List FieldSet)
    (h1 : ∀ l, (e1 l).Perm l) (h2 : ∀ l, (e2 l).Perm l) :
    List.Forall₂ (fun a b => a.1 = b.1 ∧ a.2.Perm b.2)
      (dispatchCalls { env with enumSet := e1 } request)
      (dispatchCalls { env with enumSet := e2 } request)
    ∧ ∀ c ∈ dispatchCalls { env with enumSet := e1 } request, c.2.Nodup := by
  have hgr : ∀ g ∈ classify env.compile_request_types
      (env.resolveTargets request.bsp_target), (g.2 : List FieldSet).Nodup := by
    intro g hg
    have hget := dictGet_of_mem_keys_nodup _ g hg (classify_keys_nodup _ _)
    rw [← hget, classify_get]
    exact groupFS_nodup _ _ _
  constructor
  · show List.Forall₂ _
      ((classify env.compile_request_types (env.resolveTargets request.bsp_target)).map
        (fun g => (g.1, e1 g.2)))
      ((classify env.compile_request_types (env.resolveTargets request.bsp_target)).map
        (fun g => (g.1, e2 g.2)))
    rw [List.forall₂_map_left_iff, List.forall₂_map_right_iff]
    exact List.forall₂_same.mpr (fun g _ => ⟨rfl, (h1 g.2).trans (h2 g.2).symm⟩)
  · intro c hc
    obtain ⟨g, hg, rfl⟩ := List.mem_map.mp hc
    exact ((h1 g.2).nodup_iff).mpr (hgr g hg)

/-- Witness for the amended C5: the identity and reversal enumerations
on the shared-kind environment. -/
theorem fieldset_groups_stable_up_to_perm_witness :
    (∀ l : List Nat, ((fun l => l) l).Perm l)
    ∧ (∀ l : List Nat, (List.reverse l).Perm l)
    ∧ (List.Forall₂ (fun (a b : String × List Nat) => a.1 = b.1 ∧ a.2.Perm b.2)
        (dispatchCalls { envShared with enumSet := fun l => l } sampleRequest)
        (dispatchCalls { envShared with enumSet := List.reverse } sampleRequest)
      ∧ ∀ c ∈ dispatchCalls { envShared with enumSet := fun l => l } sampleRequest,
          c.2.Nodup) := by
  have h1 : ∀ l : List Nat, ((fun l => l) l).Perm l := fun l => List.Perm.refl l
  have h2 : ∀ l : List Nat, (List.reverse l).Perm l := fun l => List.reverse_perm l
  exact ⟨h1, h2, fieldset_groups_stable_up_to_perm envShared sampleRequest _ _ h1 h2⟩

/-- The engine's `MultiGet` join fails whenever any sub-request fails. -/
theorem gatherAll_error_of_mem {α β ε : Type} (f : α → Except ε β) (l : List α)
    (h : ∃ a ∈ l, ∃ e, f a = .error e) : ∃ e, gatherAll f l = .error e := by
  induction l with
  | nil => simp at h
  | cons a rest ih =>
    obtain ⟨a', ha', e', he'⟩ := h
    rcases List.mem_cons.mp ha' with rfl | hmem
    · exact ⟨e', by simp [gatherAll, he']⟩
    · cases hfa : f a with
      | error e => exact ⟨e, by simp [gatherAll, hfa]⟩
      | ok b =>
        obtain ⟨e, hg⟩ := ih ⟨a', hmem, e', he'⟩
        exact ⟨e, by simp [gatherAll, hfa, hg]⟩

/-- C7: if any requested identifier fails to resolve, the whole batch
aborts with a resolution error: no per-target dispatch is started (the
batch trace is empty), nothing is written to the workspace, and no
compile result is returned to the client. -/
theorem resolution_failure_aborts [DecidableEq FieldSet] (env : BatchEnv Target FieldSet)
    (request : CompileParams)
    (h : ∃ i ∈ request.targets, ∃ e, env.resolve i = .error e) :
    (bsp_compile_request env request).events = []
    ∧ (bsp_compile_request env request).written = none
    ∧ ∃ e, (bsp_compile_request env request).response = .error (.resolveFailure e) := by
  obtain ⟨e, hg⟩ := gatherAll_error_of_mem env.resolve request.targets h
  refine ⟨?_, ?_, e, ?_⟩ <;> simp [bsp_compile_request, hg]

/-- Witness for C7: the batch whose resolver rejects every identifier. -/
theorem resolution_failure_aborts_witness :
    (∃ i ∈ sampleParams.targets, ∃ e, batchEnvBad.resolve i = .error e)
    ∧ (bsp_compile_request batchEnvBad sampleParams).events = []
    ∧ (bsp_compile_request batchEnvBad sampleParams).written = none
    ∧ ∃ e, (bsp_compile_request batchEnvBad sampleParams).response
        = .error (.resolveFailure e) := by
  have h : ∃ i ∈ sampleParams.targets, ∃ e, batchEnvBad.resolve i = .error e :=
    ⟨sampleTargetId, by simp [sampleParams], "unknown target", rfl⟩
  have hc := resolution_failure_aborts batchEnvBad sampleParams h
  exact ⟨h, hc.1, hc.2.1, hc.2.2⟩

/-- C6: the combined output tree is written to the workspace exactly
once, under the fixed path `.pants.d/bsp`, iff it is non-empty: a write
implies the fixed path and a non-empty digest, and when the batch
reaches the merge with results `rs` and combined digest `d`, the write
is performed iff `d` is not the empty digest. -/
theorem write_once_iff_nonempty [DecidableEq FieldSet] (env : BatchEnv Target FieldSet)
    (request : CompileParams) :
    (∀ d p, (bsp_compile_request env request).written = some (d, p) →
      p = bspWritePath ∧ d ≠ EMPTY_DIGEST)
    ∧ (∀ (bsp_targets : List BSPBuildTargetInternal) (rs : List BSPCompileResult)
        (d : Digest),
        gatherAll env.resolve request.targets = .ok bsp_targets →
        gatherAll (fun r => r.result) (batchRuns env request bsp_targets) = .ok rs →
        mergeDigests (rs.map (fun r => r.output_digest)) = .ok d →
        (bsp_compile_request env request).written
          = if d = EMPTY_DIGEST then none else some (d, bspWritePath)) := by
  constructor
  · intro d p hw
    simp only [bsp_compile_request] at hw
    split at hw
    · simp at hw
    · split at hw
      · simp at hw
      · split at hw
        · simp at hw
        · split at hw
          · next hne =>
            simp only at hw
            injection hw with h1
            injection h1 with h2 h3
            subst h2
            subst h3
            exact ⟨rfl, hne⟩
          · simp at hw
  · intro bsp_targets rs d hr1 hr2 hm
    simp only [bsp_compile_request, hr1]
    simp only [hr2]
    simp only [hm]
    by_cases hd : d = EMPTY_DIGEST
    · simp [hd]
    · simp [hd]

/-- Witness for C6: the successful one-target batch whose combined
output tree holds one file. -/
theorem write_once_iff_nonempty_witness :
    ((bsp_compile_request batchEnvOk sampleParams).written
        = some ([("out/f", "h")], bspWritePath)
      → bspWritePath = bspWritePath ∧ ([("out/f", "h")] : Digest) ≠ EMPTY_DIGEST)
    ∧ (bsp_compile_request batchEnvOk sampleParams).written
        = if ([("out/f", "h")] : Digest) = EMPTY_DIGEST then none
          else some ([("out/f", "h")], bspWritePath) :=
  ⟨(write_once_iff_nonempty batchEnvOk sampleParams).1 [("out/f", "h")] bspWritePath,
   (write_once_iff_nonempty batchEnvOk sampleParams).2
     [{ name := "t", bsp_target_id := sampleTargetId }]
     [{ status := .ok, output_digest := [("out/f", "h")] }]
     [("out/f", "h")] rfl rfl rfl⟩

end PantsBSP
